import Mathlib

/-!
Shallow embedding of the UpgradeDepDetective compatibility engine
(`src/compatibility.js`) and plugin manager / hook pipeline
(`src/plugin-manager.js`), with theorems about the behaviours the
specification describes.

Modelling conventions:
* A semantic version is a `(major, minor, patch)` triple of naturals;
  the cleaned numeric version strings the code manipulates are modelled
  as `Version` values (the `replace(/[^\d.]/g, '')` cleaning step is
  performed by the external caller in this embedding, and every version
  key of a metadata table is a valid version, so the `semver.valid`
  guards of the source always pass).
* A semver range (the argument of `semver.satisfies`) is modelled
  abstractly as a boolean predicate on versions, `SRange`; the semver
  range grammar itself is external library behaviour.
* JavaScript objects used as string-keyed maps are modelled as
  association lists in key-insertion order; their keys are unique in
  the source (`Object.keys` of an object literal / accumulation map).
* Console logging is I/O and has no observable effect on the returned
  data; it is omitted.
-/

namespace UpgradeDep

/-- A parsed semantic version `major.minor.patch`. -/
structure Version where
  major : Nat
  minor : Nat
  patch : Nat
deriving DecidableEq, Repr

/-- Strict ordering on versions, lexicographic on (major, minor, patch):
the ordering `semver.compare`/`semver.gt`/`semver.lt` implement. -/
def vlt (a b : Version) : Bool :=
  a.major < b.major ||
    (a.major == b.major &&
      (a.minor < b.minor || (a.minor == b.minor && a.patch < b.patch)))

/-- `semver.compare a b`: -1, 0 or 1. -/
def semverCompare (a b : Version) : Int :=
  if vlt a b then -1 else if a = b then 0 else 1

/-- `semver.gt a b`. -/
def semverGt (a b : Version) : Bool := vlt b a

/-- `semver.gte a b`. -/
def semverGte (a b : Version) : Bool := !vlt a b

/-- `semver.lt a b`. -/
def semverLt (a b : Version) : Bool := vlt a b

/-- Render a version back to its string form, for the `pair` label. -/
def verString (v : Version) : String :=
  toString v.major ++ "." ++ toString v.minor ++ "." ++ toString v.patch

/-- A semver range, abstracted to its satisfaction predicate:
`satisfies v r` is `semver.satisfies(v, r)`. -/
def SRange : Type := Version → Bool

/-- `semver.satisfies(version, range)`. -/
def satisfies (v : Version) (r : SRange) : Bool := r v

/-- Metadata of one concrete version of one package: the code only
reads its `peerDependencies` mapping (package name → required range). -/
structure VersionInfo where
  peerDependencies : List (String × SRange)

/-- Registry metadata of one package: its `versions` table, keyed by
version (JS object: unique keys, insertion order). -/
structure PackageDetails where
  versions : List (Version × VersionInfo)

/-- Association-list lookup for string-keyed JS objects
(`obj[key]`, `undefined` becoming `none`). -/
def alookup {β : Type _} (l : List (String × β)) (k : String) : Option β :=
  (l.find? (fun p => p.1 == k)).map (fun p => p.2)

/-- Association-list lookup for version-keyed tables
(`details.versions[v]`). -/
def vlookup {β : Type _} (l : List (Version × β)) (k : Version) : Option β :=
  (l.find? (fun p => p.1 == k)).map (fun p => p.2)

/-- `Math.abs(semver.compare(a, b))` — the "distance" used by
`findClosestVersion`.  Note its value is always 0 or 1. -/
def absCompare (a b : Version) : Nat := (semverCompare a b).natAbs

/-- `diff < minDiff`, where `minDiff` starts as JS `Infinity`
(modelled by `none`). -/
def closerThan (diff : Nat) (minDiff : Option Nat) : Bool :=
  match minDiff with
  | none => true
  | some m => diff < m

/-- The accumulation loop of `findClosestVersion`: walk the version
keys carrying `closestVersion` and `minDiff`.  (Every key is a valid
version in this model, so the `semver.valid` guard always passes.) -/
def closestLoop (version : Version) (closest : Option Version)
    (minDiff : Option Nat) : List (Version × VersionInfo) → Option Version
  | [] => closest
  | kv :: rest =>
    let diff := absCompare kv.1 version
    if closerThan diff minDiff then closestLoop version (some kv.1) (some diff) rest
    else closestLoop version closest minDiff rest

/-- The version key `findClosestVersion` selects. -/
def findClosestVersionKey (details : PackageDetails) (version : Version) :
    Option Version :=
  closestLoop version none none details.versions

/-- `findClosestVersion(packageDetails, version)`: returns
`packageDetails.versions[closestVersion]` for the selected key. -/
def findClosestVersion (details : PackageDetails) (version : Version) :
    Option VersionInfo :=
  match findClosestVersionKey details version with
  | some v => vlookup details.versions v
  | none => none

/-- The maximum of a list of versions, scanned left to right:
models `compatibleVersions.sort(semver.compare).pop()` (the greatest
element; a stable sort followed by `pop` keeps the last among equals,
which the left-to-right scan with a non-strict update reproduces). -/
def maxLoop (acc : Option Version) : List Version → Option Version
  | [] => acc
  | v :: rest =>
    match acc with
    | none => maxLoop (some v) rest
    | some m => maxLoop (some (if vlt v m then m else v)) rest

/-- `findCompatibleVersion(packageDetails, requirement)`: the highest
known version satisfying the range, if any. -/
def findCompatibleVersion (details : PackageDetails) (requirement : SRange) :
    Option Version :=
  let compatibleVersions := (details.versions.map Prod.fst).filter
    (fun v => satisfies v requirement)
  maxLoop none compatibleVersions

/-- The reason messages the engine attaches to results.  Each
constructor stands for one message template of the source; a
constructor argument carries the varying part of the message. -/
inductive Reason where
  /-- `无法获取包信息: error.message` (metadata fetch rejected). -/
  | fetchFailure (msg : String)
  /-- `无法获取完整的依赖信息` (a side's metadata is absent). -/
  | missingPackageInfo
  /-- `无法获取特定版本的依赖信息` (no version entry resolvable). -/
  | missingVersionInfo
  /-- `requirer 需要 requiree@range，但当前版本是 current`. -/
  | peerMismatch (requirer requiree : String) (current : Version)
  /-- A known-issue rule's message. -/
  | knownIssue (msg : String)
deriving DecidableEq, Repr

/-- The outcome object of `checkPairCompatibility`.  The source's
`recommendation` is an object keyed by the two (distinct) pair names;
it is modelled positionally as `(version for dep1, version for dep2)`. -/
structure PairResult where
  pair : String
  compatible : Bool
  reason : Option Reason := none
  recommendation : Option (Version × Version) := none
deriving DecidableEq, Repr

/-- One entry of the hard-coded `knownIssues` table.
`getRecommendation` returns `(version for pkg1, version for pkg2)`. -/
structure KnownIssueRule where
  pkg1 : String
  pkg2 : String
  condition : Version → Version → Bool
  reason : String
  getRecommendation : Version → Version → Version × Version

/-- What a fired known-issue rule contributes to the pair result:
its message and the recommendation, re-keyed as
`(version for dep1, version for dep2)`. -/
structure KnownIssueHit where
  reason : String
  recommendation : Version × Version
deriving DecidableEq, Repr

/-- Evaluate one `knownIssues` entry against a (directed) name pair:
`none` when the names do not match the rule's unordered pair or the
rule's condition is false; otherwise the rule's message and re-keyed
recommendation. -/
def ruleOutcome (issue : KnownIssueRule) (dep1 : String) (version1 : Version)
    (dep2 : String) (version2 : Version) : Option KnownIssueHit :=
  if (dep1 == issue.pkg1 && dep2 == issue.pkg2) ||
      (dep1 == issue.pkg2 && dep2 == issue.pkg1) then
    let v1 := if dep1 == issue.pkg1 then version1 else version2
    let v2 := if dep1 == issue.pkg1 then version2 else version1
    if issue.condition v1 v2 then
      let g := issue.getRecommendation v1 v2
      some { reason := issue.reason,
             recommendation :=
               ((if dep1 == issue.pkg1 then g.1 else g.2),
                (if dep2 == issue.pkg1 then g.1 else g.2)) }
    else none
  else none

/-- The scan loop of `checkKnownCompatibilityIssues`, generalised over
the rule table: first rule that matches the unordered name pair and
whose condition holds wins (the source's early `return`). -/
def checkKnownIssuesWith (rules : List KnownIssueRule) (dep1 : String)
    (version1 : Version) (dep2 : String) (version2 : Version) :
    Option KnownIssueHit :=
  match rules with
  | [] => none
  | issue :: rest =>
    match ruleOutcome issue dep1 version1 dep2 version2 with
    | some hit => some hit
    | none => checkKnownIssuesWith rest dep1 version1 dep2 version2

/-- The two hard-coded entries of the `knownIssues` table. -/
def knownIssues : List KnownIssueRule :=
  [ { pkg1 := "react", pkg2 := "react-dom",
      condition := fun v1 v2 => v1.major != v2.major || v1.minor != v2.minor,
      reason := "React和React DOM的版本必须完全匹配",
      getRecommendation := fun v1 v2 =>
        let newer := if semverGt v1 v2 then v1 else v2
        (newer, newer) },
    { pkg1 := "eslint", pkg2 := "eslint-plugin-react",
      condition := fun ev pv =>
        semverGte ev ⟨8, 0, 0⟩ && semverLt pv ⟨7, 28, 0⟩,
      reason := "ESLint 8.x 需要 eslint-plugin-react 7.28.0 或更高版本",
      getRecommendation := fun ev pv =>
        if semverGte ev ⟨8, 0, 0⟩ then (ev, ⟨7, 28, 0⟩) else (ev, pv) } ]

/-- `checkKnownCompatibilityIssues(dep1, version1, dep2, version2)`. -/
def checkKnownCompatibilityIssues (dep1 : String) (version1 : Version)
    (dep2 : String) (version2 : Version) : Option KnownIssueHit :=
  checkKnownIssuesWith knownIssues dep1 version1 dep2 version2

/-- A declared peer requirement that the co-installed version fails:
`some range` when the metadata declares a requirement and the version
does not satisfy it (the source's `if (peerDeps[name]) { if
(!semver.satisfies(...)) ... }` shape), `none` otherwise. -/
def unmetPeer (required : Option SRange) (v : Version) : Option SRange :=
  match required with
  | some r => if satisfies v r then none else some r
  | none => none

/-- `details.versions[cleanVersion] || findClosestVersion(details,
cleanVersion)`. -/
def lookupVersionInfo (details : PackageDetails) (v : Version) :
    Option VersionInfo :=
  match vlookup details.versions v with
  | some info => some info
  | none => findClosestVersion details v

/-- The `pair` label `dep1@v1 和 dep2@v2`. -/
def pairLabel (dep1 : String) (v1 : Version) (dep2 : String) (v2 : Version) :
    String :=
  dep1 ++ "@" ++ verString v1 ++ " 和 " ++ dep2 ++ "@" ++ verString v2

/-- `checkPairCompatibility`, generalised over the known-issue table
(the source closes over the hard-coded `knownIssues`; see
`checkPairCompatibility` below).  Input versions are the cleaned
numeric versions. -/
def checkPairCompatibilityWith (rules : List KnownIssueRule) (dep1 : String)
    (version1 : Version) (dep2 : String) (version2 : Version)
    (dependencyDetails : List (String × PackageDetails)) : PairResult :=
  let pairStr := pairLabel dep1 version1 dep2 version2
  match alookup dependencyDetails dep1, alookup dependencyDetails dep2 with
  | some details1, some details2 =>
    match lookupVersionInfo details1 version1,
        lookupVersionInfo details2 version2 with
    | some version1Info, some version2Info =>
      let peerDeps1 := version1Info.peerDependencies
      let peerDeps2 := version2Info.peerDependencies
      match unmetPeer (alookup peerDeps2 dep1) version1 with
      | some requirement =>
        { pair := pairStr, compatible := false,
          reason := some (Reason.peerMismatch dep2 dep1 version1),
          recommendation := (findCompatibleVersion details1 requirement).map
            (fun cv => (cv, version2)) }
      | none =>
        match unmetPeer (alookup peerDeps1 dep2) version2 with
        | some requirement =>
          { pair := pairStr, compatible := false,
            reason := some (Reason.peerMismatch dep1 dep2 version2),
            recommendation := (findCompatibleVersion details2 requirement).map
              (fun cv => (version1, cv)) }
        | none =>
          match checkKnownIssuesWith rules dep1 version1 dep2 version2 with
          | some hit =>
            { pair := pairStr, compatible := false,
              reason := some (Reason.knownIssue hit.reason),
              recommendation := some hit.recommendation }
          | none => { pair := pairStr, compatible := true }
    | _, _ =>
      { pair := pairStr, compatible := false,
        reason := some Reason.missingVersionInfo }
  | _, _ =>
    { pair := pairStr, compatible := false,
      reason := some Reason.missingPackageInfo }

/-- `checkPairCompatibility` with the source's hard-coded table. -/
def checkPairCompatibility (dep1 : String) (version1 : Version)
    (dep2 : String) (version2 : Version)
    (dependencyDetails : List (String × PackageDetails)) : PairResult :=
  checkPairCompatibilityWith knownIssues dep1 version1 dep2 version2
    dependencyDetails

/-- The outcome object of `checkVersionCompatibility` (no `pair`
label, no recommendation). -/
structure VersionCheckResult where
  compatible : Bool
  reason : Option Reason := none
deriving DecidableEq, Repr

/-- `checkVersionCompatibility(dep1, version1, dep2, version2,
dependencyDetails)`: the peer-range-only check used by the upgrade
analysis.  Unresolvable metadata defaults to compatible
(`无法判断，默认兼容`), and no known-issue table is consulted. -/
def checkVersionCompatibility (dep1 : String) (version1 : Version)
    (dep2 : String) (version2 : Version)
    (dependencyDetails : List (String × PackageDetails)) :
    VersionCheckResult :=
  match alookup dependencyDetails dep1, alookup dependencyDetails dep2 with
  | some details1, some details2 =>
    match lookupVersionInfo details1 version1,
        lookupVersionInfo details2 version2 with
    | some version1Info, some version2Info =>
      let peerDeps1 := version1Info.peerDependencies
      let peerDeps2 := version2Info.peerDependencies
      match unmetPeer (alookup peerDeps2 dep1) version1 with
      | some _ =>
        { compatible := false,
          reason := some (Reason.peerMismatch dep2 dep1 version1) }
      | none =>
        match unmetPeer (alookup peerDeps1 dep2) version2 with
        | some _ =>
          { compatible := false,
            reason := some (Reason.peerMismatch dep1 dep2 version2) }
        | none => { compatible := true }
    | _, _ => { compatible := true }
  | _, _ => { compatible := true }

/-! ## The aggregate `checkCompatibility` (the spec's `checkAll`) -/

/-- A per-package entry of the `unknown` list: `{name, reason}` pushed
when the metadata fetch for `name` rejects. -/
structure UnknownEntry where
  name : String
  reason : Reason
deriving DecidableEq, Repr

/-- One entry pushed into `recommendations[dep]`:
`{with: otherName, version}`. -/
structure RecEntry where
  withName : String
  version : Version
deriving DecidableEq, Repr

/-- One `upgradeIssues` entry: `{with: otherName, reason}`. -/
structure UpgradeIssue where
  withName : String
  reason : Option Reason
deriving DecidableEq, Repr

/-- An `upgradeAnalysis[dep]` value. -/
structure UpgradeAssessment where
  currentVersion : Version
  latestVersion : Version
  canUpgrade : Bool
  issues : List UpgradeIssue
deriving DecidableEq, Repr

/-- A `latestVersions[dep]` value: `{current, latest}`. -/
structure LatestInfo where
  current : Version
  latest : Version
deriving DecidableEq, Repr

/-- The aggregate result object of `checkCompatibility`.
`upgradeAnalysis` is present exactly when `latestVersions` was. -/
structure CompatReport where
  compatible : List PairResult
  incompatible : List PairResult
  unknown : List UnknownEntry
  recommendations : List (String × List RecEntry)
  upgradeAnalysis : Option (List (String × UpgradeAssessment))
deriving DecidableEq, Repr

/-- The metadata-gathering loop: for each declared dependency call the
provider (`getPackageInfo`); successes populate `dependencyDetails` in
order, failures push a per-package `{name, reason}` entry onto
`unknown` (the source's `catch` branch). -/
def gatherStep (fetch : String → Except String PackageDetails)
    (acc : List (String × PackageDetails) × List UnknownEntry)
    (kv : String × Version) :
    List (String × PackageDetails) × List UnknownEntry :=
  match fetch kv.1 with
  | Except.ok info => (acc.1 ++ [(kv.1, info)], acc.2)
  | Except.error msg => (acc.1, acc.2 ++ [⟨kv.1, Reason.fetchFailure msg⟩])

/-- See `gatherStep`. -/
def gatherDetails (deps : List (String × Version))
    (fetch : String → Except String PackageDetails) :
    List (String × PackageDetails) × List UnknownEntry :=
  deps.foldl (gatherStep fetch) ([], [])

/-- All unordered pairs of the given entries, iterating in given order
and pairing index `i` with every later index `j` (the source's nested
`for i / for j = i+1` loops; the version accompanies each name, which
is equivalent to the source's `dependencies[name]` lookup because
object keys are unique). -/
def dependencyPairs {α : Type _} : List α → List (α × α)
  | [] => []
  | d :: rest => rest.map (fun e => (d, e)) ++ dependencyPairs rest

/-- `if (!recommendations[dep]) recommendations[dep] = [];
recommendations[dep].push(entry)`. -/
def pushRecommendation (recs : List (String × List RecEntry)) (dep : String)
    (entry : RecEntry) : List (String × List RecEntry) :=
  if (recs.find? (fun p => p.1 == dep)).isSome then
    recs.map (fun p => if p.1 == dep then (p.1, p.2 ++ [entry]) else p)
  else recs ++ [(dep, [entry])]

/-- The mutable state of the pair-checking loop. -/
structure PairLoopState where
  compatible : List PairResult
  incompatible : List PairResult
  recommendations : List (String × List RecEntry)
deriving Repr

/-- One iteration of the pair-checking loop of `checkCompatibility`:
append the pair's result to `compatible` or to `incompatible`, and in
the incompatible case with a recommendation present, push the two
re-keyed recommendation entries. -/
def pairStep (rules : List KnownIssueRule)
    (dependencyDetails : List (String × PackageDetails))
    (st : PairLoopState) (pq : (String × Version) × (String × Version)) :
    PairLoopState :=
  let result := checkPairCompatibilityWith rules pq.1.1 pq.1.2 pq.2.1 pq.2.2
    dependencyDetails
  if result.compatible then
    { st with compatible := st.compatible ++ [result] }
  else
    let recs :=
      match result.recommendation with
      | some g =>
        pushRecommendation
          (pushRecommendation st.recommendations pq.1.1 ⟨pq.2.1, g.1⟩)
          pq.2.1 ⟨pq.1.1, g.2⟩
      | none => st.recommendations
    { compatible := st.compatible, incompatible := st.incompatible ++ [result],
      recommendations := recs }

/-- The pair-checking loop over all generated pairs. -/
def processPairs (rules : List KnownIssueRule)
    (dependencyDetails : List (String × PackageDetails))
    (pairs : List ((String × Version) × (String × Version))) : PairLoopState :=
  pairs.foldl (pairStep rules dependencyDetails) ⟨[], [], []⟩

/-- The inner loop of the upgrade analysis for one dependency `dep`
planned to move to `latest`: collect an issue for every *other*
declared dependency whose peer-range check fails. -/
def issueStep (dep : String) (latest : Version)
    (dependencyDetails : List (String × PackageDetails))
    (issues : List UpgradeIssue) (od : String × Version) : List UpgradeIssue :=
  if od.1 == dep then issues
  else
    let result := checkVersionCompatibility dep latest od.1 od.2
      dependencyDetails
    if result.compatible then issues
    else issues ++ [⟨od.1, result.reason⟩]

/-- See `issueStep`. -/
def upgradeIssuesFor (dep : String) (latest : Version)
    (deps : List (String × Version))
    (dependencyDetails : List (String × PackageDetails)) : List UpgradeIssue :=
  deps.foldl (issueStep dep latest dependencyDetails) []

/-- The upgrade-analysis loop of `checkCompatibility`: for every
`latestVersions` entry whose `latest` is strictly greater than
`current`, assess the hypothetical upgrade against every other
declared dependency. -/
def upgradeStep (deps : List (String × Version))
    (dependencyDetails : List (String × PackageDetails))
    (acc : List (String × UpgradeAssessment)) (kv : String × LatestInfo) :
    List (String × UpgradeAssessment) :=
  if semverGt kv.2.latest kv.2.current then
    let upgradeIssues := upgradeIssuesFor kv.1 kv.2.latest deps
      dependencyDetails
    acc ++ [(kv.1,
      { currentVersion := kv.2.current, latestVersion := kv.2.latest,
        canUpgrade := upgradeIssues.length == 0,
        issues := upgradeIssues })]
  else acc

/-- See `upgradeStep`. -/
def upgradeAnalysis (deps : List (String × Version))
    (latestVersions : List (String × LatestInfo))
    (dependencyDetails : List (String × PackageDetails)) :
    List (String × UpgradeAssessment) :=
  latestVersions.foldl (upgradeStep deps dependencyDetails) []

/-- `checkCompatibility(projectInfo, deep)`: gather metadata (failures
isolated into per-package `unknown` entries), evaluate every unordered
dependency pair, and, when `latestVersions` is present, run the
upgrade analysis.  The provider is modelled as a pure fallible
function; the `deep` flag is unused by the source. -/
def checkCompatibility (dependencies : List (String × Version))
    (latestVersions : Option (List (String × LatestInfo)))
    (fetch : String → Except String PackageDetails) : CompatReport :=
  let gathered := gatherDetails dependencies fetch
  let dependencyDetails := gathered.1
  let pairs := dependencyPairs dependencies
  let looped := processPairs knownIssues dependencyDetails pairs
  { compatible := looped.compatible,
    incompatible := looped.incompatible,
    unknown := gathered.2,
    recommendations := looped.recommendations,
    upgradeAnalysis := latestVersions.map
      (fun lv => upgradeAnalysis dependencies lv dependencyDetails) }

/-! ## Plugin manager and hook pipeline (`src/plugin-manager.js`) -/

/-- The manager's global configuration (`this.globalConfig`). -/
structure GlobalConfig where
  pluginTimeout : Nat := 5000
  enablePluginLogging : Bool := true
  failOnPluginError : Bool := false
deriving DecidableEq, Repr

/-- `this.hooks.get(hookName) || []`, generic in the handler type. -/
def lookupHandlers {H : Type _} (hooks : List (String × List H))
    (name : String) : List H :=
  (((hooks.find? (fun p => p.1 == name)).map (fun p => p.2)).getD [])

/-- `registerHook(hookName, callback)`: create the hook's list when
absent, then append the callback. -/
def registerHook {H : Type _} (hooks : List (String × List H))
    (hookName : String) (callback : H) : List (String × List H) :=
  if (hooks.find? (fun p => p.1 == hookName)).isSome then
    hooks.map (fun p => if p.1 == hookName then (p.1, p.2 ++ [callback]) else p)
  else hooks ++ [(hookName, [callback])]

/-- The handler loop of `executeHook`.  One handler invocation
(`await this.withTimeout(callback(result), timeout, msg)`) is modelled
as a fallible function: `Except.ok` is the settled value, and
`Except.error` is either the handler's thrown error or the timeout
rejection `withTimeout` races in — either way the `catch` branch.  On
failure the assignment to `result` does not happen, so the value as it
stood before the failed handler is carried to the next one; with
`failOnPluginError` set the error is re-thrown and the loop aborts. -/
def runCallbacks {α : Type _} (failOnPluginError : Bool)
    (callbacks : List (α → Except String α)) (data : α) : Except String α :=
  match callbacks with
  | [] => Except.ok data
  | cb :: rest =>
    match cb data with
    | Except.ok next => runCallbacks failOnPluginError rest next
    | Except.error e =>
      if failOnPluginError then Except.error e
      else runCallbacks failOnPluginError rest data

/-- `executeHook(hookName, data)`: run the hook's registered handlers
(in registration order) over `data` under the global failure policy. -/
def executeHook {α : Type _} (cfg : GlobalConfig)
    (hooks : List (String × List (α → Except String α))) (hookName : String)
    (data : α) : Except String α :=
  runCallbacks cfg.failOnPluginError (lookupHandlers hooks hookName) data

/-- A loaded plugin as the manager sees it for unloading: its name and
whether it has a `cleanup` method (`typeof plugin.cleanup ===
'function'`).  A cleanup's thrown error is caught and logged, with no
effect on the state, so only its invocation is observable. -/
structure Plugin where
  name : String
  hasCleanup : Bool
deriving DecidableEq, Repr

/-- The manager state the unload path touches: the active plugin map
and the hook map, generic in the handler type. -/
structure ManagerState (H : Type _) where
  plugins : List (String × Plugin)
  hooks : List (String × List H)

/-- `unloadPlugin(name)`: throw if the plugin is not loaded; otherwise
invoke its cleanup method when present (errors caught), delete it from
`this.plugins`, and return.  The returned flag records whether the
cleanup routine was invoked.  Note the hook map is not touched. -/
def unloadPlugin {H : Type _} (st : ManagerState H) (name : String) :
    Except String (ManagerState H × Bool) :=
  match (st.plugins.find? (fun p => p.1 == name)).map (fun p => p.2) with
  | none => Except.error ("插件 " ++ name ++ " 不存在")
  | some plugin =>
    Except.ok
      ({ plugins := st.plugins.filter (fun p => p.1 != name),
         hooks := st.hooks },
       plugin.hasCleanup)

/-- `registerHook` acting on a manager state. -/
def ManagerState.addHook {H : Type _} (st : ManagerState H) (hookName : String)
    (callback : H) : ManagerState H :=
  { st with hooks := registerHook st.hooks hookName callback }

/-! ## Concrete instances used by the witnesses and counterexamples -/

/-- Version metadata with no peer requirements. -/
def exInfoEmpty : VersionInfo := ⟨[]⟩

/-- A provider that rejects for package `a` and succeeds for others. -/
def exFetchC1 : String → Except String PackageDetails := fun n =>
  if n == "a" then Except.error "boom"
  else Except.ok ⟨[(⟨1, 0, 0⟩, exInfoEmpty)]⟩

/-- Two declared dependencies `a@1.0.0` and `b@1.0.0`. -/
def exDeps2 : List (String × Version) := [("a", ⟨1, 0, 0⟩), ("b", ⟨1, 0, 0⟩)]

/-- Known versions `9.0.0` and `1.0.1`, in that iteration order. -/
def exDetailsC3 : PackageDetails :=
  ⟨[(⟨9, 0, 0⟩, exInfoEmpty), (⟨1, 0, 1⟩, exInfoEmpty)]⟩

/-- Package `a`: version 1.0.0 has no peers; version 2.0.0 requires
peer `b >= 9.9.9`. -/
def exDetailsA : PackageDetails :=
  ⟨[(⟨1, 0, 0⟩, exInfoEmpty),
    (⟨2, 0, 0⟩, ⟨[("b", fun v => semverGte v ⟨9, 9, 9⟩)]⟩)]⟩

/-- Package `b`: version 1.0.0 requires peer `a >= 2.0.0`. -/
def exDetailsB : PackageDetails :=
  ⟨[(⟨1, 0, 0⟩, ⟨[("a", fun v => semverGte v ⟨2, 0, 0⟩)]⟩)]⟩

/-- Metadata table for the recommendation-substitution scenario. -/
def exDetailsC7 : List (String × PackageDetails) :=
  [("a", exDetailsA), ("b", exDetailsB)]

/-- A rule on the unordered pair (x, y) that always fires. -/
def exRuleFst : KnownIssueRule :=
  { pkg1 := "x", pkg2 := "y", condition := fun _ _ => true,
    reason := "第一条规则", getRecommendation := fun a b => (a, b) }

/-- A second always-firing rule on the same pair, with a different
message and recommendation. -/
def exRuleSnd : KnownIssueRule :=
  { pkg1 := "x", pkg2 := "y", condition := fun _ _ => true,
    reason := "第二条规则", getRecommendation := fun a b => (b, a) }

/-- Metadata resolving `x` and `y` with no peer requirements. -/
def exDetailsC6 : List (String × PackageDetails) :=
  [("x", ⟨[(⟨1, 0, 0⟩, exInfoEmpty)]⟩), ("y", ⟨[(⟨1, 0, 0⟩, exInfoEmpty)]⟩)]

/-- Package `a` for the upgrade scenario: versions 1.0.0 and 2.0.0,
no peers. -/
def exDetailsC8A : PackageDetails :=
  ⟨[(⟨1, 0, 0⟩, exInfoEmpty), (⟨2, 0, 0⟩, exInfoEmpty)]⟩

/-- Package `b` for the upgrade scenario: requires peer `a < 2.0.0`. -/
def exDetailsC8B : PackageDetails :=
  ⟨[(⟨1, 0, 0⟩, ⟨[("a", fun v => semverLt v ⟨2, 0, 0⟩)]⟩)]⟩

/-- Metadata table for the upgrade scenario. -/
def exDetailsC8 : List (String × PackageDetails) :=
  [("a", exDetailsC8A), ("b", exDetailsC8B)]

/-- Latest-version table: `a` can move from 1.0.0 to 2.0.0. -/
def exLatestA : List (String × LatestInfo) :=
  [("a", ⟨⟨1, 0, 0⟩, ⟨2, 0, 0⟩⟩)]

/-- The assessment the upgrade scenario produces for `a`. -/
def exAssessC8 : UpgradeAssessment :=
  { currentVersion := ⟨1, 0, 0⟩, latestVersion := ⟨2, 0, 0⟩,
    canUpgrade := false,
    issues := [⟨"b", some (Reason.peerMismatch "b" "a" ⟨2, 0, 0⟩)⟩] }

/-- A provider that rejects for every package. -/
def exFetchDown : String → Except String PackageDetails :=
  fun _ => Except.error "down"

/-- A handler that increments, modelling a resolving callback. -/
def exCbOk : Nat → Except String Nat := fun n => Except.ok (n + 1)

/-- A handler whose invocation fails (a throw or a timeout). -/
def exCbErr : Nat → Except String Nat := fun _ => Except.error "执行失败"

/-- A manager state in which plugin `p` is loaded and the one handler
it registered (modelled by the token `7`) sits on the
`format-report` hook list. -/
def exStateC4 : ManagerState Nat :=
  ManagerState.addHook ⟨[("p", ⟨"p", false⟩)], []⟩ "format-report" 7

/-! ## Basic facts about the version order -/

theorem vlt_iff (a b : Version) :
    vlt a b = true ↔
      (a.major < b.major ∨ (a.major = b.major ∧
        (a.minor < b.minor ∨ (a.minor = b.minor ∧ a.patch < b.patch)))) := by
  simp [vlt]

theorem vlt_irrefl (a : Version) : vlt a a = false := by
  simp [vlt]

theorem vlt_asymm {a b : Version} (h : vlt a b = true) : vlt b a = false := by
  rw [vlt_iff] at h
  cases hba : vlt b a
  · rfl
  · rw [vlt_iff] at hba
    omega

theorem vlt_trans {a b c : Version} (hab : vlt a b = true)
    (hbc : vlt b c = true) : vlt a c = true := by
  rw [vlt_iff] at hab hbc ⊢
  omega

theorem vlt_total {a b : Version} (hab : vlt a b = false)
    (hba : vlt b a = false) : a = b := by
  rw [Bool.eq_false_iff] at hab hba
  rw [ne_eq, vlt_iff] at hab hba
  rcases a with ⟨a1, a2, a3⟩
  rcases b with ⟨b1, b2, b3⟩
  dsimp only at hab hba
  simp only [Version.mk.injEq]
  omega

theorem absCompare_eq (a b : Version) :
    absCompare a b = if a = b then 0 else 1 := by
  by_cases h : a = b
  · subst h
    simp [absCompare, semverCompare, vlt_irrefl]
  · simp only [absCompare, semverCompare, if_neg h]
    by_cases hl : vlt a b = true
    · simp [hl]
    · simp [hl]

/-! ## Characterisation of the closest-version fallback -/

theorem closestLoop_minDiff_zero (t c : Version)
    (l : List (Version × VersionInfo)) :
    closestLoop t (some c) (some 0) l = some c := by
  induction l with
  | nil => rfl
  | cons kv rest ih =>
    simp only [closestLoop, closerThan, absCompare_eq]
    have : ¬ ((if kv.1 = t then 0 else 1) < 0) := by
      split <;> omega
    simp only [decide_eq_true_eq]
    rw [if_neg this]
    exact ih

theorem closestLoop_minDiff_one (t c : Version)
    (l : List (Version × VersionInfo)) :
    closestLoop t (some c) (some 1) l =
      if t ∈ l.map Prod.fst then some t else some c := by
  induction l generalizing c with
  | nil => simp [closestLoop]
  | cons kv rest ih =>
    by_cases hk : kv.1 = t
    · have h0 : absCompare kv.1 t = 0 := by rw [absCompare_eq, if_pos hk]
      have hmem : t ∈ (kv :: rest).map Prod.fst := by
        rw [List.map_cons, hk]
        exact List.mem_cons_self _ _
      simp only [closestLoop, h0]
      rw [if_pos (by decide : closerThan 0 (some 1) = true), hk,
        closestLoop_minDiff_zero, if_pos hmem]
    · have h1 : absCompare kv.1 t = 1 := by rw [absCompare_eq, if_neg hk]
      have hiff : (t ∈ (kv :: rest).map Prod.fst) ↔
          t ∈ rest.map Prod.fst := by
        rw [List.map_cons, List.mem_cons]
        constructor
        · rintro (h | h)
          · exact absurd h.symm hk
          · exact h
        · exact Or.inr
      simp only [closestLoop, h1]
      rw [if_neg (by decide : ¬ closerThan 1 (some 1) = true), ih,
        if_congr hiff rfl rfl]

theorem findClosestVersionKey_eq (details : PackageDetails) (t : Version) :
    findClosestVersionKey details t =
      if t ∈ details.versions.map Prod.fst then some t
      else (details.versions.map Prod.fst).head? := by
  rcases details with ⟨l⟩
  cases l with
  | nil => simp [findClosestVersionKey, closestLoop]
  | cons kv rest =>
    show closestLoop t none none (kv :: rest) = _
    by_cases hk : kv.1 = t
    · have h0 : absCompare kv.1 t = 0 := by rw [absCompare_eq, if_pos hk]
      have hmem : t ∈ (kv :: rest).map Prod.fst := by
        rw [List.map_cons, hk]
        exact List.mem_cons_self _ _
      simp only [closestLoop, h0]
      rw [if_pos (by decide : closerThan 0 none = true), hk,
        closestLoop_minDiff_zero, if_pos hmem]
    · have h1 : absCompare kv.1 t = 1 := by rw [absCompare_eq, if_neg hk]
      have hiff : (t ∈ (kv :: rest).map Prod.fst) ↔
          t ∈ rest.map Prod.fst := by
        rw [List.map_cons, List.mem_cons]
        constructor
        · rintro (h | h)
          · exact absurd h.symm hk
          · exact h
        · exact Or.inr
      simp only [closestLoop, h1]
      rw [if_pos (by decide : closerThan 1 none = true),
        closestLoop_minDiff_one, if_congr hiff rfl rfl]
      simp [List.map_cons]

theorem vlt_false_trans {a b c : Version} (h1 : vlt a b = false)
    (h2 : vlt b c = false) : vlt a c = false := by
  rw [Bool.eq_false_iff, ne_eq, vlt_iff] at h1 h2 ⊢
  omega

theorem vlt_true_false {a b c : Version} (h1 : vlt a b = true)
    (h2 : vlt c b = false) : vlt c a = false := by
  rw [vlt_iff] at h1
  rw [Bool.eq_false_iff, ne_eq, vlt_iff] at h2 ⊢
  omega

/-! ## Characterisation of the highest-compatible-version scan -/

theorem maxLoop_mem : ∀ (l : List Version) (acc : Option Version)
    (v : Version), maxLoop acc l = some v → acc = some v ∨ v ∈ l := by
  intro l
  induction l with
  | nil =>
    intro acc v h
    exact Or.inl h
  | cons w rest ih =>
    intro acc v h
    cases acc with
    | none =>
      rcases ih (some w) v h with h1 | h1
      · exact Or.inr (by simp [Option.some.injEq] at h1; simp [h1])
      · exact Or.inr (List.mem_cons_of_mem _ h1)
    | some m =>
      rcases ih _ v h with h1 | h1
      · by_cases hw : vlt w m = true
        · rw [if_pos hw] at h1
          exact Or.inl h1
        · rw [if_neg hw] at h1
          simp only [Option.some.injEq] at h1
          exact Or.inr (by simp [h1])
      · exact Or.inr (List.mem_cons_of_mem _ h1)

theorem maxLoop_ub : ∀ (l : List Version) (acc : Option Version)
    (v : Version), maxLoop acc l = some v →
      (∀ m, acc = some m → vlt v m = false) ∧
      (∀ u ∈ l, vlt v u = false) := by
  intro l
  induction l with
  | nil =>
    intro acc v h
    refine ⟨fun m hm => ?_, fun u hu => absurd hu (List.not_mem_nil u)⟩
    rw [hm] at h
    injection h with h2
    rw [h2]
    exact vlt_irrefl v
  | cons w rest ih =>
    intro acc v h
    cases acc with
    | none =>
      obtain ⟨ha, hl⟩ := ih (some w) v h
      refine ⟨fun m hm => Option.noConfusion hm, fun u hu => ?_⟩
      rcases List.mem_cons.mp hu with h1 | h1
      · exact h1 ▸ ha w rfl
      · exact hl u h1
    | some m =>
      obtain ⟨ha, hl⟩ := ih _ v h
      have hstep : vlt v (if vlt w m then m else w) = false := ha _ rfl
      by_cases hw : vlt w m = true
      · rw [if_pos hw] at hstep
        refine ⟨fun m2 hm2 => ?_, fun u hu => ?_⟩
        · cases hm2
          exact hstep
        · rcases List.mem_cons.mp hu with h1 | h1
          · exact h1 ▸ vlt_true_false hw hstep
          · exact hl u h1
      · rw [if_neg hw] at hstep
        have hwm : vlt w m = false := Bool.eq_false_iff.mpr hw
        refine ⟨fun m2 hm2 => ?_, fun u hu => ?_⟩
        · cases hm2
          exact vlt_false_trans hstep hwm
        · rcases List.mem_cons.mp hu with h1 | h1
          · exact h1 ▸ hstep
          · exact hl u h1

theorem maxLoop_none : ∀ (l : List Version) (acc : Option Version),
    maxLoop acc l = none → acc = none ∧ l = [] := by
  intro l
  induction l with
  | nil => exact fun acc h => ⟨h, rfl⟩
  | cons w rest ih =>
    intro acc h
    cases acc with
    | none =>
      have := (ih (some w) h).1
      cases this
    | some m =>
      have := (ih _ h).1
      cases this

/-- The versions of a satisfying recommendation: a `some` result of
`findCompatibleVersion` is a known version key, satisfies the
requirement, and no satisfying known version is strictly greater. -/
theorem findCompatibleVersion_spec {details : PackageDetails} {req : SRange}
    {v : Version} (h : findCompatibleVersion details req = some v) :
    v ∈ details.versions.map Prod.fst ∧ satisfies v req = true ∧
      ∀ u ∈ details.versions.map Prod.fst, satisfies u req = true →
        vlt v u = false := by
  unfold findCompatibleVersion at h
  have hmem := maxLoop_mem _ _ _ h
  have hub := (maxLoop_ub _ _ _ h).2
  rcases hmem with h1 | h1
  · cases h1
  · have h2 := List.mem_filter.mp h1
    refine ⟨h2.1, h2.2, fun u hu hsat => ?_⟩
    exact hub u (List.mem_filter.mpr ⟨hu, hsat⟩)

/-- A `none` result of `findCompatibleVersion` means no known version
satisfies the requirement. -/
theorem findCompatibleVersion_none {details : PackageDetails} {req : SRange}
    (h : findCompatibleVersion details req = none) :
    ∀ u ∈ details.versions.map Prod.fst, satisfies u req = false := by
  unfold findCompatibleVersion at h
  have := (maxLoop_none _ _ h).2
  intro u hu
  by_contra hsat
  rw [Bool.not_eq_false] at hsat
  have : u ∈ (List.filter (fun v => satisfies v req)
      (details.versions.map Prod.fst)) := List.mem_filter.mpr ⟨hu, hsat⟩
  rw [(maxLoop_none _ _ h).2] at this
  exact absurd this (List.not_mem_nil u)

/-! ## The pair-checking loop as filters over the pair evaluations -/

theorem foldl_pairStep_compatible (rules : List KnownIssueRule)
    (det : List (String × PackageDetails))
    (pairs : List ((String × Version) × (String × Version))) :
    ∀ st : PairLoopState,
      (pairs.foldl (pairStep rules det) st).compatible =
        st.compatible ++
          (pairs.map (fun pq => checkPairCompatibilityWith rules pq.1.1 pq.1.2
            pq.2.1 pq.2.2 det)).filter (fun r => r.compatible) := by
  induction pairs with
  | nil => simp
  | cons pq rest ih =>
    intro st
    cases hc : (checkPairCompatibilityWith rules pq.1.1 pq.1.2 pq.2.1 pq.2.2
        det).compatible
    · rw [List.foldl_cons, ih]
      simp [pairStep, hc, List.filter_cons]
    · rw [List.foldl_cons, ih]
      simp [pairStep, hc, List.filter_cons]

theorem foldl_pairStep_incompatible (rules : List KnownIssueRule)
    (det : List (String × PackageDetails))
    (pairs : List ((String × Version) × (String × Version))) :
    ∀ st : PairLoopState,
      (pairs.foldl (pairStep rules det) st).incompatible =
        st.incompatible ++
          (pairs.map (fun pq => checkPairCompatibilityWith rules pq.1.1 pq.1.2
            pq.2.1 pq.2.2 det)).filter (fun r => !r.compatible) := by
  induction pairs with
  | nil => simp
  | cons pq rest ih =>
    intro st
    cases hc : (checkPairCompatibilityWith rules pq.1.1 pq.1.2 pq.2.1 pq.2.2
        det).compatible
    · rw [List.foldl_cons, ih]
      simp [pairStep, hc, List.filter_cons]
    · rw [List.foldl_cons, ih]
      simp [pairStep, hc, List.filter_cons]

theorem processPairs_compatible (rules : List KnownIssueRule)
    (det : List (String × PackageDetails))
    (pairs : List ((String × Version) × (String × Version))) :
    (processPairs rules det pairs).compatible =
      (pairs.map (fun pq => checkPairCompatibilityWith rules pq.1.1 pq.1.2
        pq.2.1 pq.2.2 det)).filter (fun r => r.compatible) := by
  unfold processPairs
  rw [foldl_pairStep_compatible]
  rfl

theorem processPairs_incompatible (rules : List KnownIssueRule)
    (det : List (String × PackageDetails))
    (pairs : List ((String × Version) × (String × Version))) :
    (processPairs rules det pairs).incompatible =
      (pairs.map (fun pq => checkPairCompatibilityWith rules pq.1.1 pq.1.2
        pq.2.1 pq.2.2 det)).filter (fun r => !r.compatible) := by
  unfold processPairs
  rw [foldl_pairStep_incompatible]
  rfl

theorem length_filter_partition {α : Type _} (p : α → Bool) (l : List α) :
    (l.filter p).length + (l.filter (fun x => !(p x))).length = l.length := by
  induction l with
  | nil => rfl
  | cons x rest ih =>
    rw [List.filter_cons, List.filter_cons]
    cases hx : p x <;> simp [hx] <;> omega

theorem dependencyPairs_length {α : Type _} (l : List α) :
    (dependencyPairs l).length = l.length.choose 2 := by
  induction l with
  | nil => rfl
  | cons d rest ih =>
    rw [dependencyPairs, List.length_append, List.length_map, ih,
      List.length_cons, Nat.choose_succ_succ, Nat.choose_one_right]

/-! ## The metadata-gathering loop in closed form -/

theorem foldl_gatherStep (fetch : String → Except String PackageDetails)
    (deps : List (String × Version)) :
    ∀ acc, deps.foldl (gatherStep fetch) acc =
      (acc.1 ++ deps.filterMap (fun kv =>
         match fetch kv.1 with
         | Except.ok info => some (kv.1, info)
         | Except.error _ => none),
       acc.2 ++ deps.filterMap (fun kv =>
         match fetch kv.1 with
         | Except.ok _ => none
         | Except.error msg => some ⟨kv.1, Reason.fetchFailure msg⟩)) := by
  induction deps with
  | nil => simp
  | cons kv rest ih =>
    intro acc
    rw [List.foldl_cons, ih, List.filterMap_cons, List.filterMap_cons]
    cases hf : fetch kv.1 <;> simp [gatherStep, hf]

theorem gatherDetails_unknown (deps : List (String × Version))
    (fetch : String → Except String PackageDetails) :
    (gatherDetails deps fetch).2 = deps.filterMap (fun kv =>
      match fetch kv.1 with
      | Except.ok _ => none
      | Except.error msg => some ⟨kv.1, Reason.fetchFailure msg⟩) := by
  unfold gatherDetails
  rw [foldl_gatherStep]
  rfl

/-! ## The upgrade-analysis loops in closed form -/

theorem foldl_issueStep (dep : String) (latest : Version)
    (det : List (String × PackageDetails)) (deps : List (String × Version)) :
    ∀ acc, deps.foldl (issueStep dep latest det) acc =
      acc ++ deps.filterMap (fun od =>
        if od.1 == dep then none
        else
          if (checkVersionCompatibility dep latest od.1 od.2 det).compatible
          then none
          else some ⟨od.1,
            (checkVersionCompatibility dep latest od.1 od.2 det).reason⟩) := by
  induction deps with
  | nil => simp
  | cons od rest ih =>
    intro acc
    rw [List.foldl_cons, ih, List.filterMap_cons]
    by_cases hd : od.1 == dep
    · simp [issueStep, hd]
    · cases hc : (checkVersionCompatibility dep latest od.1 od.2
          det).compatible <;>
        simp [issueStep, hd, hc]

theorem upgradeIssuesFor_eq (dep : String) (latest : Version)
    (deps : List (String × Version)) (det : List (String × PackageDetails)) :
    upgradeIssuesFor dep latest deps det =
      deps.filterMap (fun od =>
        if od.1 == dep then none
        else
          if (checkVersionCompatibility dep latest od.1 od.2 det).compatible
          then none
          else some ⟨od.1,
            (checkVersionCompatibility dep latest od.1 od.2 det).reason⟩) := by
  unfold upgradeIssuesFor
  rw [foldl_issueStep]
  rfl

theorem foldl_upgradeStep (deps : List (String × Version))
    (det : List (String × PackageDetails))
    (latest : List (String × LatestInfo)) :
    ∀ acc, latest.foldl (upgradeStep deps det) acc =
      acc ++ latest.filterMap (fun kv =>
        if semverGt kv.2.latest kv.2.current then
          some (kv.1,
            { currentVersion := kv.2.current, latestVersion := kv.2.latest,
              canUpgrade := (upgradeIssuesFor kv.1 kv.2.latest deps
                det).length == 0,
              issues := upgradeIssuesFor kv.1 kv.2.latest deps det })
        else none) := by
  induction latest with
  | nil => simp
  | cons kv rest ih =>
    intro acc
    rw [List.foldl_cons, ih, List.filterMap_cons]
    by_cases hg : semverGt kv.2.latest kv.2.current <;>
      simp [upgradeStep, hg]

theorem upgradeAnalysis_eq (deps : List (String × Version))
    (latest : List (String × LatestInfo))
    (det : List (String × PackageDetails)) :
    upgradeAnalysis deps latest det =
      latest.filterMap (fun kv =>
        if semverGt kv.2.latest kv.2.current then
          some (kv.1,
            { currentVersion := kv.2.current, latestVersion := kv.2.latest,
              canUpgrade := (upgradeIssuesFor kv.1 kv.2.latest deps
                det).length == 0,
              issues := upgradeIssuesFor kv.1 kv.2.latest deps det })
        else none) := by
  unfold upgradeAnalysis
  rw [foldl_upgradeStep]
  rfl

/-! ## Case equations for the pair check -/

theorem checkPair_missing_details {rules : List KnownIssueRule} {d1 : String}
    {v1 : Version} {d2 : String} {v2 : Version}
    {det : List (String × PackageDetails)}
    (h : alookup det d1 = none ∨ alookup det d2 = none) :
    checkPairCompatibilityWith rules d1 v1 d2 v2 det =
      { pair := pairLabel d1 v1 d2 v2, compatible := false,
        reason := some Reason.missingPackageInfo } := by
  rcases h with h | h
  · cases h2 : alookup det d2 <;> simp [checkPairCompatibilityWith, h, h2]
  · cases h1 : alookup det d1 <;> simp [checkPairCompatibilityWith, h, h1]

theorem checkPair_missing_version {rules : List KnownIssueRule} {d1 : String}
    {v1 : Version} {d2 : String} {v2 : Version}
    {det : List (String × PackageDetails)} {D1 D2 : PackageDetails}
    (h1 : alookup det d1 = some D1) (h2 : alookup det d2 = some D2)
    (h : lookupVersionInfo D1 v1 = none ∨ lookupVersionInfo D2 v2 = none) :
    checkPairCompatibilityWith rules d1 v1 d2 v2 det =
      { pair := pairLabel d1 v1 d2 v2, compatible := false,
        reason := some Reason.missingVersionInfo } := by
  rcases h with h | h
  · cases hl : lookupVersionInfo D2 v2 <;>
      simp [checkPairCompatibilityWith, h1, h2, h, hl]
  · cases hl : lookupVersionInfo D1 v1 <;>
      simp [checkPairCompatibilityWith, h1, h2, h, hl]

theorem checkPair_dir1 {rules : List KnownIssueRule} {d1 : String}
    {v1 : Version} {d2 : String} {v2 : Version}
    {det : List (String × PackageDetails)} {D1 D2 : PackageDetails}
    {I1 I2 : VersionInfo} {req : SRange}
    (h1 : alookup det d1 = some D1) (h2 : alookup det d2 = some D2)
    (hv1 : lookupVersionInfo D1 v1 = some I1)
    (hv2 : lookupVersionInfo D2 v2 = some I2)
    (hp : unmetPeer (alookup I2.peerDependencies d1) v1 = some req) :
    checkPairCompatibilityWith rules d1 v1 d2 v2 det =
      { pair := pairLabel d1 v1 d2 v2, compatible := false,
        reason := some (Reason.peerMismatch d2 d1 v1),
        recommendation := (findCompatibleVersion D1 req).map
          (fun cv => (cv, v2)) } := by
  simp [checkPairCompatibilityWith, h1, h2, hv1, hv2, hp]

theorem checkPair_dir2 {rules : List KnownIssueRule} {d1 : String}
    {v1 : Version} {d2 : String} {v2 : Version}
    {det : List (String × PackageDetails)} {D1 D2 : PackageDetails}
    {I1 I2 : VersionInfo} {req : SRange}
    (h1 : alookup det d1 = some D1) (h2 : alookup det d2 = some D2)
    (hv1 : lookupVersionInfo D1 v1 = some I1)
    (hv2 : lookupVersionInfo D2 v2 = some I2)
    (hp1 : unmetPeer (alookup I2.peerDependencies d1) v1 = none)
    (hp2 : unmetPeer (alookup I1.peerDependencies d2) v2 = some req) :
    checkPairCompatibilityWith rules d1 v1 d2 v2 det =
      { pair := pairLabel d1 v1 d2 v2, compatible := false,
        reason := some (Reason.peerMismatch d1 d2 v2),
        recommendation := (findCompatibleVersion D2 req).map
          (fun cv => (v1, cv)) } := by
  simp [checkPairCompatibilityWith, h1, h2, hv1, hv2, hp1, hp2]

theorem checkPair_known_some {rules : List KnownIssueRule} {d1 : String}
    {v1 : Version} {d2 : String} {v2 : Version}
    {det : List (String × PackageDetails)} {D1 D2 : PackageDetails}
    {I1 I2 : VersionInfo} {hit : KnownIssueHit}
    (h1 : alookup det d1 = some D1) (h2 : alookup det d2 = some D2)
    (hv1 : lookupVersionInfo D1 v1 = some I1)
    (hv2 : lookupVersionInfo D2 v2 = some I2)
    (hp1 : unmetPeer (alookup I2.peerDependencies d1) v1 = none)
    (hp2 : unmetPeer (alookup I1.peerDependencies d2) v2 = none)
    (hk : checkKnownIssuesWith rules d1 v1 d2 v2 = some hit) :
    checkPairCompatibilityWith rules d1 v1 d2 v2 det =
      { pair := pairLabel d1 v1 d2 v2, compatible := false,
        reason := some (Reason.knownIssue hit.reason),
        recommendation := some hit.recommendation } := by
  simp [checkPairCompatibilityWith, h1, h2, hv1, hv2, hp1, hp2, hk]

theorem checkPair_known_none {rules : List KnownIssueRule} {d1 : String}
    {v1 : Version} {d2 : String} {v2 : Version}
    {det : List (String × PackageDetails)} {D1 D2 : PackageDetails}
    {I1 I2 : VersionInfo}
    (h1 : alookup det d1 = some D1) (h2 : alookup det d2 = some D2)
    (hv1 : lookupVersionInfo D1 v1 = some I1)
    (hv2 : lookupVersionInfo D2 v2 = some I2)
    (hp1 : unmetPeer (alookup I2.peerDependencies d1) v1 = none)
    (hp2 : unmetPeer (alookup I1.peerDependencies d2) v2 = none)
    (hk : checkKnownIssuesWith rules d1 v1 d2 v2 = none) :
    checkPairCompatibilityWith rules d1 v1 d2 v2 det =
      { pair := pairLabel d1 v1 d2 v2, compatible := true } := by
  simp [checkPairCompatibilityWith, h1, h2, hv1, hv2, hp1, hp2, hk]

/-! ## Case equations for the upgrade-analysis peer check -/

theorem checkVersion_missing_details {d1 : String} {v1 : Version}
    {d2 : String} {v2 : Version} {det : List (String × PackageDetails)}
    (h : alookup det d1 = none ∨ alookup det d2 = none) :
    checkVersionCompatibility d1 v1 d2 v2 det =
      { compatible := true, reason := none } := by
  rcases h with h | h
  · cases h2 : alookup det d2 <;> simp [checkVersionCompatibility, h, h2]
  · cases h1 : alookup det d1 <;> simp [checkVersionCompatibility, h, h1]

theorem checkVersion_missing_version {d1 : String} {v1 : Version}
    {d2 : String} {v2 : Version} {det : List (String × PackageDetails)}
    {D1 D2 : PackageDetails}
    (h1 : alookup det d1 = some D1) (h2 : alookup det d2 = some D2)
    (h : lookupVersionInfo D1 v1 = none ∨ lookupVersionInfo D2 v2 = none) :
    checkVersionCompatibility d1 v1 d2 v2 det =
      { compatible := true, reason := none } := by
  rcases h with h | h
  · cases hl : lookupVersionInfo D2 v2 <;>
      simp [checkVersionCompatibility, h1, h2, h, hl]
  · cases hl : lookupVersionInfo D1 v1 <;>
      simp [checkVersionCompatibility, h1, h2, h, hl]

theorem checkVersion_no_known_issue_reason (d1 : String) (v1 : Version)
    (d2 : String) (v2 : Version) (det : List (String × PackageDetails))
    (m : String) :
    (checkVersionCompatibility d1 v1 d2 v2 det).reason ≠
      some (Reason.knownIssue m) := by
  unfold checkVersionCompatibility
  split
  · split
    · dsimp only
      split
      · simp
      · split
        · simp
        · simp
    · simp
  · simp

/-! ## The known-issues scan -/

theorem checkKnownIssuesWith_append {pre rules : List KnownIssueRule}
    {d1 : String} {v1 : Version} {d2 : String} {v2 : Version}
    (h : ∀ r ∈ pre, ruleOutcome r d1 v1 d2 v2 = none) :
    checkKnownIssuesWith (pre ++ rules) d1 v1 d2 v2 =
      checkKnownIssuesWith rules d1 v1 d2 v2 := by
  induction pre with
  | nil => rfl
  | cons r0 rest ih =>
    have h0 := h r0 (List.mem_cons_self _ _)
    rw [List.cons_append]
    simp only [checkKnownIssuesWith, h0]
    exact ih (fun r hr => h r (List.mem_cons_of_mem _ hr))

theorem checkKnownIssuesWith_cons_some {r0 : KnownIssueRule}
    {rules : List KnownIssueRule} {d1 : String} {v1 : Version} {d2 : String}
    {v2 : Version} {hit : KnownIssueHit}
    (h : ruleOutcome r0 d1 v1 d2 v2 = some hit) :
    checkKnownIssuesWith (r0 :: rules) d1 v1 d2 v2 = some hit := by
  simp only [checkKnownIssuesWith, h]

theorem ruleOutcome_matches {r : KnownIssueRule} {d1 : String} {v1 : Version}
    {d2 : String} {v2 : Version} {hit : KnownIssueHit}
    (h : ruleOutcome r d1 v1 d2 v2 = some hit) :
    (d1 = r.pkg1 ∧ d2 = r.pkg2) ∨ (d1 = r.pkg2 ∧ d2 = r.pkg1) := by
  unfold ruleOutcome at h
  by_cases hm : ((d1 == r.pkg1 && d2 == r.pkg2) ||
      (d1 == r.pkg2 && d2 == r.pkg1)) = true
  · simpa using hm
  · rw [if_neg hm] at h
    cases h

/-! ## Association-list facts for the plugin manager -/

theorem alookup_cons {β : Type _} (p : String × β) (l : List (String × β))
    (k : String) :
    alookup (p :: l) k = if p.1 == k then some p.2 else alookup l k := by
  unfold alookup
  cases hp : (p.1 == k) <;> simp [List.find?, hp]

theorem alookup_filter_self {β : Type _} (l : List (String × β))
    (name : String) :
    alookup (l.filter (fun p => p.1 != name)) name = none := by
  induction l with
  | nil => rfl
  | cons p rest ih =>
    by_cases hp : p.1 = name
    · simp [List.filter_cons, hp, ih]
    · simp [List.filter_cons, hp, alookup_cons, ih]

theorem alookup_filter_other {β : Type _} (l : List (String × β))
    {q name : String} (h : q ≠ name) :
    alookup (l.filter (fun p => p.1 != name)) q = alookup l q := by
  induction l with
  | nil => rfl
  | cons p rest ih =>
    by_cases hp : p.1 = name
    · simp [List.filter_cons, hp, alookup_cons, ih, Ne.symm h]
    · simp [List.filter_cons, hp, alookup_cons, ih]

/-! ## The hook map: registration appends in order -/

theorem find_map_update {H : Type _} (n : String) (cb : H) :
    ∀ l : List (String × List H),
      ((l.map (fun p => if p.1 == n then (p.1, p.2 ++ [cb]) else p)).find?
          (fun p => p.1 == n)) =
        (l.find? (fun p => p.1 == n)).map (fun p => (p.1, p.2 ++ [cb])) := by
  intro l
  induction l with
  | nil => rfl
  | cons p rest ih =>
    cases hp : (p.1 == n) <;>
      (simp only [List.map_cons, List.find?_cons, hp, Bool.false_eq_true,
        if_false, if_true, ih]
       try simp [hp, List.find?_cons, ih])

theorem lookupHandlers_registerHook_self {H : Type _}
    (hooks : List (String × List H)) (n : String) (cb : H) :
    lookupHandlers (registerHook hooks n cb) n = lookupHandlers hooks n ++ [cb] := by
  unfold registerHook
  by_cases h : (hooks.find? (fun p => p.1 == n)).isSome
  · rw [if_pos h]
    obtain ⟨q, hq⟩ := Option.isSome_iff_exists.mp h
    unfold lookupHandlers
    rw [find_map_update, hq]
    rfl
  · rw [if_neg h]
    have hn : hooks.find? (fun p => p.1 == n) = none :=
      Option.not_isSome_iff_eq_none.mp h
    unfold lookupHandlers
    rw [List.find?_append, hn]
    simp

/-! ## Claim theorems -/

/-- Claim C9: for every hook name with zero registered handlers and
every input value, running the hook returns the data unchanged — the
pipeline's identity law. -/
theorem c9_hook_identity {α : Type _} (cfg : GlobalConfig)
    (hooks : List (String × List (α → Except String α))) (hookName : String)
    (data : α) (h : lookupHandlers hooks hookName = []) :
    executeHook cfg hooks hookName data = Except.ok data := by
  unfold executeHook
  rw [h]
  rfl

/-- Witness for C9: an empty hook map at a concrete input. -/
theorem c9_hook_identity_witness :
    executeHook { } ([] : List (String × List (Nat → Except String Nat)))
      "format-report" 42 = Except.ok 42 :=
  c9_hook_identity { } [] "format-report" 42 rfl

/-- Claim C5: the hook runner executes handlers strictly sequentially
in registration order (registration appends to the hook list, and a
successful prefix threads its final value into the remaining
handlers); when a handler's invocation fails — a thrown error or the
timeout rejection — the failure propagates and the run aborts
immediately under `failOnPluginError`, and otherwise execution skips
to the next handler carrying the data value as it stood before the
failed handler, the failed handler's value being discarded. -/
theorem c5_hook_failure_policy {α : Type _} (cfg : GlobalConfig)
    (hooks : List (String × List (α → Except String α))) (hookName : String)
    (data : α) :
    (executeHook cfg hooks hookName data =
       runCallbacks cfg.failOnPluginError (lookupHandlers hooks hookName)
         data) ∧
    (∀ (b : Bool) (cbs1 cbs2 : List (α → Except String α)) (r r2 : α),
       runCallbacks b cbs1 r = Except.ok r2 →
       runCallbacks b (cbs1 ++ cbs2) r = runCallbacks b cbs2 r2) ∧
    (∀ (cb : α → Except String α) (rest : List (α → Except String α))
       (r : α) (e : String), cb r = Except.error e →
       runCallbacks true (cb :: rest) r = Except.error e) ∧
    (∀ (cb : α → Except String α) (rest : List (α → Except String α))
       (r : α) (e : String), cb r = Except.error e →
       runCallbacks false (cb :: rest) r = runCallbacks false rest r) ∧
    (∀ (hooks2 : List (String × List (α → Except String α)))
       (n : String) (cb : α → Except String α),
       lookupHandlers (registerHook hooks2 n cb) n =
         lookupHandlers hooks2 n ++ [cb]) := by
  refine ⟨rfl, ?_, ?_, ?_, ?_⟩
  · intro b cbs1
    induction cbs1 with
    | nil =>
      intro cbs2 r r2 h
      simp only [runCallbacks] at h
      injection h with h2
      rw [List.nil_append, h2]
    | cons cb rest ih =>
      intro cbs2 r r2 h
      rw [List.cons_append]
      cases hcb : cb r with
      | ok next =>
        simp only [runCallbacks, hcb] at h ⊢
        exact ih cbs2 next r2 h
      | error e =>
        simp only [runCallbacks, hcb] at h ⊢
        cases b with
        | true => simp at h
        | false =>
          simp only [Bool.false_eq_true, if_false] at h ⊢
          exact ih cbs2 r r2 h
  · intro cb rest r e hcb
    simp [runCallbacks, hcb]
  · intro cb rest r e hcb
    simp [runCallbacks, hcb]
  · intro hooks2 n cb
    exact lookupHandlers_registerHook_self hooks2 n cb

/-- Witness for C5: a failing handler aborts under the fail-fast flag,
is skipped (with the pre-failure value carried forward) otherwise, and
a successful prefix threads its value into the remaining handlers. -/
theorem c5_hook_failure_policy_witness :
    runCallbacks true [exCbErr, exCbOk] 5 = Except.error "执行失败" ∧
    runCallbacks false [exCbErr, exCbOk] 5 = runCallbacks false [exCbOk] 5 ∧
    runCallbacks false ([exCbOk] ++ [exCbOk]) 3 =
      runCallbacks false [exCbOk] 4 := by
  have h := c5_hook_failure_policy ({ } : GlobalConfig)
    ([] : List (String × List (Nat → Except String Nat))) "check-pair" 0
  exact ⟨h.2.2.1 exCbErr [exCbOk] 5 "执行失败" rfl,
         h.2.2.2.1 exCbErr [exCbOk] 5 "执行失败" rfl,
         h.2.1 false [exCbOk] [exCbOk] 3 4 rfl⟩

/-- Claim C4 (amended): for every loaded plugin id, `unloadPlugin`
invokes the unit's cleanup routine when it has one and removes the
unit from the active set, but it does not strip the unit's registered
handlers: every hook list is left exactly as it was before the
unload. -/
theorem c4_unload_keeps_hooks {H : Type _} (st : ManagerState H)
    (name : String) (p : Plugin) (h : alookup st.plugins name = some p) :
    ∃ st2 : ManagerState H,
      unloadPlugin st name = Except.ok (st2, p.hasCleanup) ∧
      st2.hooks = st.hooks ∧
      alookup st2.plugins name = none ∧
      ∀ q, q ≠ name → alookup st2.plugins q = alookup st.plugins q := by
  refine ⟨{ plugins := st.plugins.filter (fun q => q.1 != name),
            hooks := st.hooks }, ?_, rfl, ?_, ?_⟩
  · unfold unloadPlugin
    unfold alookup at h
    rw [h]
  · exact alookup_filter_self st.plugins name
  · intro q hq
    exact alookup_filter_other st.plugins hq

/-- Witness for C4's amended theorem at the concrete one-plugin
state. -/
theorem c4_unload_keeps_hooks_witness :
    ∃ st2 : ManagerState Nat,
      unloadPlugin exStateC4 "p" = Except.ok (st2, false) ∧
      st2.hooks = exStateC4.hooks ∧
      alookup st2.plugins "p" = none ∧
      ∀ q, q ≠ "p" → alookup st2.plugins q = alookup exStateC4.plugins q :=
  c4_unload_keeps_hooks exStateC4 "p" ⟨"p", false⟩ rfl

/-- Claim C4 counterexample: in `exStateC4` the only loaded unit `p`
registered one handler (the token `7`) on the `format-report` hook;
after `unloadPlugin "p"` returns, that hook list still contains the
handler, so the claim that no hook list retains the unloaded unit's
handlers is false. -/
theorem c4_counterexample :
    unloadPlugin exStateC4 "p" =
      Except.ok (({ plugins := [], hooks := [("format-report", [7])] } :
        ManagerState Nat), false) ∧
    lookupHandlers (({ plugins := [], hooks := [("format-report", [7])] } :
      ManagerState Nat)).hooks "format-report" = [7] :=
  ⟨rfl, rfl⟩

/-- Claim C3 (amended): the fallback's distance is the absolute value
of the `semver.compare` result — 0 for an equal version and 1 for any
other version — so the exact target is selected when it is a known
key, and otherwise every candidate ties at distance 1 and the
first-encountered known version is selected, regardless of numeric
closeness. -/
theorem c3_closest_version_amended (details : PackageDetails) (t : Version) :
    (∀ a b : Version, absCompare a b = if a = b then 0 else 1) ∧
    findClosestVersionKey details t =
      (if t ∈ details.versions.map Prod.fst then some t
       else (details.versions.map Prod.fst).head?) :=
  ⟨absCompare_eq, findClosestVersionKey_eq details t⟩

/-- Claim C3 counterexample: with known versions 9.0.0 then 1.0.1 and
target 1.0.0, both candidates lie above the target and 1.0.1 is the
numerically closer one, yet the fallback selects 9.0.0 — minimal
tuple distance is not what the code computes. -/
theorem c3_counterexample :
    findClosestVersionKey exDetailsC3 ⟨1, 0, 0⟩ = some ⟨9, 0, 0⟩ ∧
    vlt ⟨1, 0, 0⟩ ⟨1, 0, 1⟩ = true ∧ vlt ⟨1, 0, 1⟩ ⟨9, 0, 0⟩ = true := by
  decide

/-- Claim C2: for a dependency map with n names, `checkCompatibility`
evaluates exactly C(n,2) unordered pairs, generated by iterating the
names in their given order and pairing i with every later j; each
pair evaluation is appended to exactly one of
`compatible`/`incompatible` (and hence to exactly one of the three
result lists, `unknown` holding only per-package entries), so the
three lists together contain exactly C(n,2) pair entries. -/
theorem c2_pair_accounting (deps : List (String × Version))
    (latest : Option (List (String × LatestInfo)))
    (fetch : String → Except String PackageDetails) :
    (dependencyPairs deps).length = deps.length.choose 2 ∧
    (checkCompatibility deps latest fetch).compatible =
      ((dependencyPairs deps).map (fun pq => checkPairCompatibilityWith
        knownIssues pq.1.1 pq.1.2 pq.2.1 pq.2.2
        (gatherDetails deps fetch).1)).filter (fun r => r.compatible) ∧
    (checkCompatibility deps latest fetch).incompatible =
      ((dependencyPairs deps).map (fun pq => checkPairCompatibilityWith
        knownIssues pq.1.1 pq.1.2 pq.2.1 pq.2.2
        (gatherDetails deps fetch).1)).filter (fun r => !r.compatible) ∧
    (checkCompatibility deps latest fetch).compatible.length +
      (checkCompatibility deps latest fetch).incompatible.length =
        deps.length.choose 2 := by
  have hc : (checkCompatibility deps latest fetch).compatible =
      ((dependencyPairs deps).map (fun pq => checkPairCompatibilityWith
        knownIssues pq.1.1 pq.1.2 pq.2.1 pq.2.2
        (gatherDetails deps fetch).1)).filter (fun r => r.compatible) :=
    processPairs_compatible _ _ _
  have hi : (checkCompatibility deps latest fetch).incompatible =
      ((dependencyPairs deps).map (fun pq => checkPairCompatibilityWith
        knownIssues pq.1.1 pq.1.2 pq.2.1 pq.2.2
        (gatherDetails deps fetch).1)).filter (fun r => !r.compatible) :=
    processPairs_incompatible _ _ _
  refine ⟨dependencyPairs_length deps, hc, hi, ?_⟩
  rw [hc, hi, length_filter_partition, List.length_map,
    dependencyPairs_length]

/-- Claim C1 (amended): a metadata fetch failure never aborts the
batch — `checkCompatibility` still accounts for every pair — and the
failure is recorded in `unknown` as a per-package entry carrying the
failure reason; however, each affected pair itself is classified
`incompatible` (with the missing-metadata reason), not `unknown`. -/
theorem c1_failure_policy (deps : List (String × Version))
    (latest : Option (List (String × LatestInfo)))
    (fetch : String → Except String PackageDetails) :
    (∀ (d : String) (v : Version) (msg : String), (d, v) ∈ deps →
       fetch d = Except.error msg →
       (⟨d, Reason.fetchFailure msg⟩ : UnknownEntry) ∈
         (checkCompatibility deps latest fetch).unknown) ∧
    ((checkCompatibility deps latest fetch).compatible.length +
       (checkCompatibility deps latest fetch).incompatible.length =
       deps.length.choose 2) ∧
    (∀ pq ∈ dependencyPairs deps,
       alookup (gatherDetails deps fetch).1 pq.1.1 = none ∨
         alookup (gatherDetails deps fetch).1 pq.2.1 = none →
       checkPairCompatibilityWith knownIssues pq.1.1 pq.1.2 pq.2.1 pq.2.2
           (gatherDetails deps fetch).1 ∈
         (checkCompatibility deps latest fetch).incompatible ∧
       (checkPairCompatibilityWith knownIssues pq.1.1 pq.1.2 pq.2.1 pq.2.2
           (gatherDetails deps fetch).1).compatible = false ∧
       (checkPairCompatibilityWith knownIssues pq.1.1 pq.1.2 pq.2.1 pq.2.2
           (gatherDetails deps fetch).1).reason =
         some Reason.missingPackageInfo) := by
  have hu : (checkCompatibility deps latest fetch).unknown =
      deps.filterMap (fun kv =>
        match fetch kv.1 with
        | Except.ok _ => none
        | Except.error msg => some ⟨kv.1, Reason.fetchFailure msg⟩) :=
    gatherDetails_unknown deps fetch
  have hi : (checkCompatibility deps latest fetch).incompatible =
      ((dependencyPairs deps).map (fun pq => checkPairCompatibilityWith
        knownIssues pq.1.1 pq.1.2 pq.2.1 pq.2.2
        (gatherDetails deps fetch).1)).filter (fun r => !r.compatible) :=
    processPairs_incompatible _ _ _
  have hcl : (checkCompatibility deps latest fetch).compatible =
      ((dependencyPairs deps).map (fun pq => checkPairCompatibilityWith
        knownIssues pq.1.1 pq.1.2 pq.2.1 pq.2.2
        (gatherDetails deps fetch).1)).filter (fun r => r.compatible) :=
    processPairs_compatible _ _ _
  refine ⟨?_, ?_, ?_⟩
  · intro d v msg hdv hmsg
    rw [hu]
    exact List.mem_filterMap.mpr ⟨(d, v), hdv, by simp [hmsg]⟩
  · rw [hcl, hi, length_filter_partition, List.length_map,
      dependencyPairs_length]
  · intro pq hpq hmiss
    have heq := @checkPair_missing_details knownIssues pq.1.1 pq.1.2 pq.2.1
      pq.2.2 (gatherDetails deps fetch).1 hmiss
    refine ⟨?_, by rw [heq], by rw [heq]⟩
    rw [hi]
    refine List.mem_filter.mpr ⟨List.mem_map.mpr ⟨pq, hpq, rfl⟩, ?_⟩
    rw [heq]
    rfl

/-- Witness for C1's amended theorem: the concrete two-dependency run
with the fetch for `a` rejecting. -/
theorem c1_failure_policy_witness :
    (⟨"a", Reason.fetchFailure "boom"⟩ : UnknownEntry) ∈
      (checkCompatibility exDeps2 none exFetchC1).unknown ∧
    checkPairCompatibilityWith knownIssues "a" ⟨1, 0, 0⟩ "b" ⟨1, 0, 0⟩
        (gatherDetails exDeps2 exFetchC1).1 ∈
      (checkCompatibility exDeps2 none exFetchC1).incompatible := by
  have h := c1_failure_policy exDeps2 none exFetchC1
  exact ⟨h.1 "a" ⟨1, 0, 0⟩ "boom" (by decide) rfl,
    (h.2.2 (("a", ⟨1, 0, 0⟩), ("b", ⟨1, 0, 0⟩)) (by decide) (Or.inl rfl)).1⟩

/-- Claim C1 counterexample: with the fetch for `a` rejecting, the
run classifies the affected pair (a, b) as `incompatible` with the
missing-metadata reason, while `unknown` holds only the per-package
entry for `a` — the affected pair is not downgraded to "unknown" as
claimed. -/
theorem c1_counterexample :
    (checkCompatibility exDeps2 none exFetchC1).incompatible =
      [{ pair := pairLabel "a" ⟨1, 0, 0⟩ "b" ⟨1, 0, 0⟩, compatible := false,
         reason := some Reason.missingPackageInfo }] ∧
    (checkCompatibility exDeps2 none exFetchC1).unknown =
      [⟨"a", Reason.fetchFailure "boom"⟩] ∧
    (checkCompatibility exDeps2 none exFetchC1).compatible = [] :=
  ⟨rfl, rfl, rfl⟩

/-- Claim C10: the upgrade-analysis peer check returns compatible
whenever metadata for either package is missing or no version entry
is resolvable — so unresolvable metadata counts as no blocking issue
and can make `canUpgrade` true — which is the opposite default from
the pair check, which classifies the same situations as not
compatible. -/
theorem c10_opposite_defaults (rules : List KnownIssueRule) (d1 : String)
    (v1 : Version) (d2 : String) (v2 : Version)
    (det : List (String × PackageDetails)) :
    (alookup det d1 = none ∨ alookup det d2 = none →
       checkVersionCompatibility d1 v1 d2 v2 det =
         { compatible := true, reason := none } ∧
       (checkPairCompatibilityWith rules d1 v1 d2 v2 det).compatible =
         false) ∧
    (∀ D1 D2, alookup det d1 = some D1 → alookup det d2 = some D2 →
       (lookupVersionInfo D1 v1 = none ∨ lookupVersionInfo D2 v2 = none) →
       checkVersionCompatibility d1 v1 d2 v2 det =
         { compatible := true, reason := none } ∧
       (checkPairCompatibilityWith rules d1 v1 d2 v2 det).compatible =
         false) ∧
    (upgradeAnalysis exDeps2 exLatestA [] =
       [("a", { currentVersion := ⟨1, 0, 0⟩, latestVersion := ⟨2, 0, 0⟩,
                canUpgrade := true, issues := [] })] ∧
     (checkPairCompatibilityWith rules "a" ⟨1, 0, 0⟩ "b" ⟨1, 0, 0⟩
        []).compatible = false) := by
  refine ⟨fun h => ⟨checkVersion_missing_details h, ?_⟩,
          fun D1 D2 h1 h2 h =>
            ⟨checkVersion_missing_version h1 h2 h, ?_⟩,
          rfl, ?_⟩
  · rw [checkPair_missing_details h]
  · rw [checkPair_missing_version h1 h2 h]
  · rw [@checkPair_missing_details rules "a" ⟨1, 0, 0⟩ "b" ⟨1, 0, 0⟩ []
      (Or.inl rfl)]

/-- Witness for C10 at an empty metadata table (every fetch failed). -/
theorem c10_opposite_defaults_witness :
    checkVersionCompatibility "a" ⟨1, 0, 0⟩ "b" ⟨1, 0, 0⟩ [] =
      { compatible := true, reason := none } ∧
    (checkPairCompatibility "a" ⟨1, 0, 0⟩ "b" ⟨1, 0, 0⟩ []).compatible =
      false :=
  (c10_opposite_defaults knownIssues "a" ⟨1, 0, 0⟩ "b" ⟨1, 0, 0⟩ []).1
    (Or.inl rfl)

/-- Claim C6: the known-issues table is consulted only when no
peer-range violation was found in either direction — a violation in
either direction fixes the result with no reference to the table;
matching uses unordered pair-name equality; rules are evaluated in
declaration order and the first rule that matches and whose predicate
returns true determines the outcome, its message and recommendation
becoming the result's reason and recommendation regardless of any
later rule. -/
theorem c6_known_issue_stage (rules : List KnownIssueRule)
    (d1 : String) (v1 : Version) (d2 : String) (v2 : Version)
    (det : List (String × PackageDetails)) (D1 D2 : PackageDetails)
    (I1 I2 : VersionInfo) :
    (∀ (r : KnownIssueRule) (hit : KnownIssueHit),
       ruleOutcome r d1 v1 d2 v2 = some hit →
       (d1 = r.pkg1 ∧ d2 = r.pkg2) ∨ (d1 = r.pkg2 ∧ d2 = r.pkg1)) ∧
    (∀ (pre rest : List KnownIssueRule) (r : KnownIssueRule)
       (hit : KnownIssueHit),
       (∀ r2 ∈ pre, ruleOutcome r2 d1 v1 d2 v2 = none) →
       ruleOutcome r d1 v1 d2 v2 = some hit →
       checkKnownIssuesWith (pre ++ r :: rest) d1 v1 d2 v2 = some hit) ∧
    (alookup det d1 = some D1 → alookup det d2 = some D2 →
     lookupVersionInfo D1 v1 = some I1 → lookupVersionInfo D2 v2 = some I2 →
     (∀ req, unmetPeer (alookup I2.peerDependencies d1) v1 = some req →
        ∀ rules2, checkPairCompatibilityWith rules d1 v1 d2 v2 det =
          checkPairCompatibilityWith rules2 d1 v1 d2 v2 det) ∧
     (∀ req, unmetPeer (alookup I2.peerDependencies d1) v1 = none →
        unmetPeer (alookup I1.peerDependencies d2) v2 = some req →
        ∀ rules2, checkPairCompatibilityWith rules d1 v1 d2 v2 det =
          checkPairCompatibilityWith rules2 d1 v1 d2 v2 det) ∧
     (unmetPeer (alookup I2.peerDependencies d1) v1 = none →
      unmetPeer (alookup I1.peerDependencies d2) v2 = none →
      (∀ hit, checkKnownIssuesWith rules d1 v1 d2 v2 = some hit →
         checkPairCompatibilityWith rules d1 v1 d2 v2 det =
           { pair := pairLabel d1 v1 d2 v2, compatible := false,
             reason := some (Reason.knownIssue hit.reason),
             recommendation := some hit.recommendation }) ∧
      (checkKnownIssuesWith rules d1 v1 d2 v2 = none →
         checkPairCompatibilityWith rules d1 v1 d2 v2 det =
           { pair := pairLabel d1 v1 d2 v2, compatible := true }))) := by
  refine ⟨fun r hit h => ruleOutcome_matches h, ?_,
    fun h1 h2 hv1 hv2 => ⟨?_, ?_, ?_⟩⟩
  · intro pre rest r hit hpre hr
    rw [checkKnownIssuesWith_append hpre, checkKnownIssuesWith_cons_some hr]
  · intro req hreq rules2
    rw [@checkPair_dir1 rules d1 v1 d2 v2 det D1 D2 I1 I2 req h1 h2 hv1 hv2
        hreq,
      @checkPair_dir1 rules2 d1 v1 d2 v2 det D1 D2 I1 I2 req h1 h2 hv1 hv2
        hreq]
  · intro req hp1 hreq rules2
    rw [@checkPair_dir2 rules d1 v1 d2 v2 det D1 D2 I1 I2 req h1 h2 hv1 hv2
        hp1 hreq,
      @checkPair_dir2 rules2 d1 v1 d2 v2 det D1 D2 I1 I2 req h1 h2 hv1 hv2
        hp1 hreq]
  · intro hp1 hp2
    exact ⟨fun hit hk => checkPair_known_some h1 h2 hv1 hv2 hp1 hp2 hk,
           fun hk => checkPair_known_none h1 h2 hv1 hv2 hp1 hp2 hk⟩

/-- Witness for C6: two always-firing rules on the unordered pair
(x, y); the first-registered rule's message and recommendation win
even though the second rule's predicate also returns true. -/
theorem c6_known_issue_stage_witness :
    checkKnownIssuesWith [exRuleFst, exRuleSnd] "x" ⟨1, 0, 0⟩ "y"
        ⟨1, 0, 0⟩ =
      some ⟨"第一条规则", (⟨1, 0, 0⟩, ⟨1, 0, 0⟩)⟩ ∧
    checkPairCompatibilityWith [exRuleFst, exRuleSnd] "x" ⟨1, 0, 0⟩ "y"
        ⟨1, 0, 0⟩ exDetailsC6 =
      { pair := pairLabel "x" ⟨1, 0, 0⟩ "y" ⟨1, 0, 0⟩, compatible := false,
        reason := some (Reason.knownIssue "第一条规则"),
        recommendation := some (⟨1, 0, 0⟩, ⟨1, 0, 0⟩) } ∧
    ruleOutcome exRuleSnd "x" ⟨1, 0, 0⟩ "y" ⟨1, 0, 0⟩ =
      some ⟨"第二条规则", (⟨1, 0, 0⟩, ⟨1, 0, 0⟩)⟩ := by
  have h := c6_known_issue_stage [exRuleFst, exRuleSnd] "x" ⟨1, 0, 0⟩ "y"
    ⟨1, 0, 0⟩ exDetailsC6 ⟨[(⟨1, 0, 0⟩, exInfoEmpty)]⟩
    ⟨[(⟨1, 0, 0⟩, exInfoEmpty)]⟩ exInfoEmpty exInfoEmpty
  have hk : checkKnownIssuesWith [exRuleFst, exRuleSnd] "x" ⟨1, 0, 0⟩ "y"
      ⟨1, 0, 0⟩ = some ⟨"第一条规则", (⟨1, 0, 0⟩, ⟨1, 0, 0⟩)⟩ :=
    h.2.1 [] [exRuleSnd] exRuleFst ⟨"第一条规则", (⟨1, 0, 0⟩, ⟨1, 0, 0⟩)⟩
      (fun r2 hr2 => absurd hr2 (List.not_mem_nil r2)) rfl
  exact ⟨hk, ((h.2.2 rfl rfl rfl rfl).2.2 rfl rfl).1 _ hk, rfl⟩

/-- Claim C7 (amended): when a peer-range violation is found, the
recommendation for the violating package is the highest known version
satisfying the required range, and it is absent exactly when no known
version satisfies the range; a present recommendation satisfies the
range that triggered the violation, but substituting it back into the
pair check need not yield "compatible", because the substituted
version's own peer requirements and the known-issue rules are
evaluated afresh. -/
theorem c7_recommendation_policy (rules : List KnownIssueRule)
    (d1 : String) (v1 : Version) (d2 : String) (v2 : Version)
    (det : List (String × PackageDetails)) (D1 D2 : PackageDetails)
    (I1 I2 : VersionInfo)
    (h1 : alookup det d1 = some D1) (h2 : alookup det d2 = some D2)
    (hv1 : lookupVersionInfo D1 v1 = some I1)
    (hv2 : lookupVersionInfo D2 v2 = some I2) :
    (∀ req, unmetPeer (alookup I2.peerDependencies d1) v1 = some req →
       (checkPairCompatibilityWith rules d1 v1 d2 v2 det).compatible =
         false ∧
       (checkPairCompatibilityWith rules d1 v1 d2 v2 det).recommendation =
         (findCompatibleVersion D1 req).map (fun cv => (cv, v2)) ∧
       (∀ cv, findCompatibleVersion D1 req = some cv →
          cv ∈ D1.versions.map Prod.fst ∧ satisfies cv req = true ∧
          ∀ u ∈ D1.versions.map Prod.fst, satisfies u req = true →
            vlt cv u = false) ∧
       (findCompatibleVersion D1 req = none →
          ∀ u ∈ D1.versions.map Prod.fst, satisfies u req = false)) ∧
    (∀ req, unmetPeer (alookup I2.peerDependencies d1) v1 = none →
       unmetPeer (alookup I1.peerDependencies d2) v2 = some req →
       (checkPairCompatibilityWith rules d1 v1 d2 v2 det).compatible =
         false ∧
       (checkPairCompatibilityWith rules d1 v1 d2 v2 det).recommendation =
         (findCompatibleVersion D2 req).map (fun cv => (v1, cv)) ∧
       (∀ cv, findCompatibleVersion D2 req = some cv →
          cv ∈ D2.versions.map Prod.fst ∧ satisfies cv req = true ∧
          ∀ u ∈ D2.versions.map Prod.fst, satisfies u req = true →
            vlt cv u = false) ∧
       (findCompatibleVersion D2 req = none →
          ∀ u ∈ D2.versions.map Prod.fst, satisfies u req = false)) := by
  constructor
  · intro req hreq
    have heq := @checkPair_dir1 rules d1 v1 d2 v2 det D1 D2 I1 I2 req h1 h2
      hv1 hv2 hreq
    exact ⟨by rw [heq], by rw [heq],
      fun cv hcv => findCompatibleVersion_spec hcv,
      fun hnone => findCompatibleVersion_none hnone⟩
  · intro req hp1 hreq
    have heq := @checkPair_dir2 rules d1 v1 d2 v2 det D1 D2 I1 I2 req h1 h2
      hv1 hv2 hp1 hreq
    exact ⟨by rw [heq], by rw [heq],
      fun cv hcv => findCompatibleVersion_spec hcv,
      fun hnone => findCompatibleVersion_none hnone⟩

/-- Witness for C7's amended theorem at the concrete scenario in which
b@1.0.0 requires peer `a >= 2.0.0`. -/
theorem c7_recommendation_policy_witness :
    (checkPairCompatibilityWith knownIssues "a" ⟨1, 0, 0⟩ "b" ⟨1, 0, 0⟩
        exDetailsC7).compatible = false ∧
    (checkPairCompatibilityWith knownIssues "a" ⟨1, 0, 0⟩ "b" ⟨1, 0, 0⟩
        exDetailsC7).recommendation =
      (findCompatibleVersion exDetailsA
        (fun v => semverGte v ⟨2, 0, 0⟩)).map (fun cv => (cv, ⟨1, 0, 0⟩)) := by
  have h := c7_recommendation_policy knownIssues "a" ⟨1, 0, 0⟩ "b" ⟨1, 0, 0⟩
    exDetailsC7 exDetailsA exDetailsB exInfoEmpty
    ⟨[("a", fun v => semverGte v ⟨2, 0, 0⟩)]⟩ rfl rfl rfl rfl
  have h2 := h.1 (fun v => semverGte v ⟨2, 0, 0⟩) rfl
  exact ⟨h2.1, h2.2.1⟩

/-- Claim C7 counterexample: with b@1.0.0 requiring peer `a >= 2.0.0`
and a@2.0.0 itself requiring peer `b >= 9.9.9`, the engine recommends
a@2.0.0 (the highest known satisfying version), yet substituting the
recommendation back yields an incompatible pair again — the claimed
substitution soundness does not hold. -/
theorem c7_counterexample :
    (checkPairCompatibility "a" ⟨1, 0, 0⟩ "b" ⟨1, 0, 0⟩
      exDetailsC7).compatible = false ∧
    (checkPairCompatibility "a" ⟨1, 0, 0⟩ "b" ⟨1, 0, 0⟩
      exDetailsC7).recommendation = some (⟨2, 0, 0⟩, ⟨1, 0, 0⟩) ∧
    (checkPairCompatibility "a" ⟨2, 0, 0⟩ "b" ⟨1, 0, 0⟩
      exDetailsC7).compatible = false :=
  ⟨rfl, rfl, rfl⟩

/-- Claim C8: the upgrade analysis produces an assessment exactly for
the dependencies whose latest version is strictly greater than their
current one; the assessment's blocking issues come from testing the
latest version against every other declared dependency with the
peer-range-only check — whose reasons can never come from the
known-issues table — and `canUpgrade` is true iff no peer check
fails. -/
theorem c8_upgrade_analysis (deps : List (String × Version))
    (latest : List (String × LatestInfo))
    (det : List (String × PackageDetails)) (dep : String) :
    ((∃ a, (dep, a) ∈ upgradeAnalysis deps latest det) ↔
       (∃ li, (dep, li) ∈ latest ∧ semverGt li.latest li.current = true)) ∧
    (∀ a, (dep, a) ∈ upgradeAnalysis deps latest det →
       ∃ li, (dep, li) ∈ latest ∧ semverGt li.latest li.current = true ∧
         a.currentVersion = li.current ∧ a.latestVersion = li.latest ∧
         a.issues = upgradeIssuesFor dep li.latest deps det ∧
         (a.canUpgrade = true ↔ ∀ od ∈ deps, od.1 ≠ dep →
            (checkVersionCompatibility dep li.latest od.1 od.2
              det).compatible = true)) ∧
    (∀ (w1 : Version) (d2 : String) (w2 : Version) (m : String),
       (checkVersionCompatibility dep w1 d2 w2 det).reason ≠
         some (Reason.knownIssue m)) := by
  have hmem : ∀ a, (dep, a) ∈ upgradeAnalysis deps latest det →
      ∃ li, (dep, li) ∈ latest ∧ semverGt li.latest li.current = true ∧
        a = { currentVersion := li.current, latestVersion := li.latest,
              canUpgrade := (upgradeIssuesFor dep li.latest deps
                det).length == 0,
              issues := upgradeIssuesFor dep li.latest deps det } := by
    intro a ha
    rw [upgradeAnalysis_eq] at ha
    obtain ⟨kv, hkv, hg⟩ := List.mem_filterMap.mp ha
    by_cases hgt : semverGt kv.2.latest kv.2.current = true
    · rw [if_pos hgt] at hg
      injection hg with hg2
      have hdep : kv.1 = dep := congrArg Prod.fst hg2
      have ha2 : a = _ := (congrArg Prod.snd hg2).symm
      refine ⟨kv.2, ?_, hgt, ?_⟩
      · rw [← hdep]
        exact hkv
      · rw [← hdep]
        exact ha2
    · rw [if_neg hgt] at hg
      cases hg
  have hcan : ∀ li : LatestInfo,
      ((upgradeIssuesFor dep li.latest deps det).length == 0) = true ↔
        ∀ od ∈ deps, od.1 ≠ dep →
          (checkVersionCompatibility dep li.latest od.1 od.2
            det).compatible = true := by
    intro li
    rw [beq_iff_eq, List.length_eq_zero, upgradeIssuesFor_eq,
      List.filterMap_eq_nil_iff]
    constructor
    · intro hall od hod hne
      have h0 := hall od hod
      rw [if_neg (by simp [hne])] at h0
      by_cases hc : (checkVersionCompatibility dep li.latest od.1 od.2
          det).compatible = true
      · exact hc
      · rw [if_neg hc] at h0
        cases h0
    · intro hall od hod
      by_cases hd : od.1 = dep
      · rw [if_pos (by simp [hd])]
      · rw [if_neg (by simp [hd]), if_pos (hall od hod hd)]
  refine ⟨⟨?_, ?_⟩, ?_, fun w1 d2 w2 m =>
    checkVersion_no_known_issue_reason dep w1 d2 w2 det m⟩
  · rintro ⟨a, ha⟩
    obtain ⟨li, hli, hgt, _⟩ := hmem a ha
    exact ⟨li, hli, hgt⟩
  · rintro ⟨li, hli, hgt⟩
    refine ⟨{ currentVersion := li.current, latestVersion := li.latest,
              canUpgrade := (upgradeIssuesFor dep li.latest deps
                det).length == 0,
              issues := upgradeIssuesFor dep li.latest deps det }, ?_⟩
    rw [upgradeAnalysis_eq]
    refine List.mem_filterMap.mpr ⟨(dep, li), hli, ?_⟩
    rw [if_pos hgt]
  · intro a ha
    obtain ⟨li, hli, hgt, ha2⟩ := hmem a ha
    refine ⟨li, hli, hgt, by rw [ha2], by rw [ha2], by rw [ha2], ?_⟩
    rw [ha2]
    exact hcan li

/-- Witness for C8 at the concrete upgrade scenario in which b@1.0.0
requires peer `a < 2.0.0`: the produced assessment for `a` matches
the theorem's characterisation. -/
theorem c8_upgrade_analysis_witness :
    ∃ li, ("a", li) ∈ exLatestA ∧ semverGt li.latest li.current = true ∧
      exAssessC8.currentVersion = li.current ∧
      exAssessC8.latestVersion = li.latest ∧
      exAssessC8.issues = upgradeIssuesFor "a" li.latest exDeps2
        exDetailsC8 ∧
      (exAssessC8.canUpgrade = true ↔ ∀ od ∈ exDeps2, od.1 ≠ "a" →
         (checkVersionCompatibility "a" li.latest od.1 od.2
           exDetailsC8).compatible = true) :=
  (c8_upgrade_analysis exDeps2 exLatestA exDetailsC8 "a").2.1 exAssessC8
    (by decide)

end UpgradeDep
